import Mathlib

/-!
Verification development for the tile-downloader repository (task.py).

The Python source is shallowly embedded:

* The MBTiles SQLite tables are modelled as explicit row lists.  The
  tiles table is a list of rows; SQLite INSERT OR REPLACE under the
  primary key (zoom_level, tile_column, tile_row) is modelled as
  "delete conflicting rows, then append the new row".  The metadata
  table (UNIQUE(name)) is modelled the same way, keyed by name.
* Python ints are Int (x, y, HTTP status); zoom levels come from
  range(...) and are Nat.
* The HTTP session (requests, an external collaborator) is a parameter:
  a function from the tile coordinate to either a transport error or a
  pair of status code and body.  The URL template only packages the
  coordinates into the request, so the collaborator is keyed directly
  by the coordinate.
* The worker functions thread an explicit WorkerState: the tiles table,
  the thread-local sqlite connection flag (open or closed), the shared
  progress-bar counter, the number of HTTP fetches performed, and the
  log of emitted log records.  Locks and the semaphore only control
  interleaving, so in this sequential embedding they have no effect.
* Python exceptions propagating out of a worker are the Bool component
  of the result (true means the call raised); finally-blocks are
  applied to the state on both paths, as in Python.
* The geometry library (shapely) is an external collaborator: the
  intersection test is a Boolean-valued parameter applied to the raw
  4-tuple produced by tile_bounds, and the float math functions
  (math.pi, math.sinh, math.atan, math.degrees) are fields of a
  FloatMath parameter; float arithmetic is idealised as exact rational
  arithmetic.
-/

/-- Tile payload bytes (response.content). -/
abbrev Bytes := List Nat

/-- A row of the tiles table: zoom_level, tile_column, tile_row, tile_data. -/
structure TilesRow where
  zoom_level : Nat
  tile_column : Int
  tile_row : Int
  tile_data : Bytes
deriving DecidableEq

/-- MBTilesManager.tile_exists: SELECT COUNT(*) FROM tiles WHERE
zoom_level=zoom AND tile_column=x AND tile_row=2**zoom - 1 - y, then
compare the count with 0. -/
def tile_exists (tiles : List TilesRow) (zoom : Nat) (x y : Int) : Bool :=
  0 < tiles.countP (fun r =>
    r.zoom_level == zoom && r.tile_column == x && r.tile_row == 2 ^ zoom - 1 - y)

/-- MBTilesManager.save_tile: INSERT OR REPLACE INTO tiles, with primary
key (zoom_level, tile_column, tile_row): any row with the same key is
deleted and the new row is inserted. -/
def save_tile (tiles : List TilesRow) (zoom : Nat) (x y : Int) (tile_data : Bytes) :
    List TilesRow :=
  tiles.filter (fun r =>
    !(r.zoom_level == zoom && r.tile_column == x && r.tile_row == 2 ^ zoom - 1 - y))
    ++ [⟨zoom, x, 2 ^ zoom - 1 - y, tile_data⟩]

/-- The database file: the two tables, each present (some rows) or
absent (none). -/
structure DBFile where
  tilesTab : Option (List TilesRow)
  metaTab : Option (List (String × String))
deriving DecidableEq

/-- The five default metadata rows inserted by MBTilesManager.initialize_db. -/
def metadata_defaults : List (String × String) :=
  [("name", "OpenStreetMapTiles"),
   ("type", "overlay"),
   ("version", "1.1"),
   ("description", "OpenStreetMap tile downloader"),
   ("format", "png")]

/-- INSERT OR REPLACE INTO metadata (name, value), with UNIQUE(name):
any row with the same name is deleted and the new row is inserted. -/
def insertOrReplaceMeta (m : List (String × String)) (nm v : String) :
    List (String × String) :=
  m.filter (fun r => !(r.1 == nm)) ++ [(nm, v)]

/-- MBTilesManager.initialize_db: CREATE TABLE IF NOT EXISTS for tiles
and metadata (keep an existing table, create an empty one otherwise),
then INSERT OR REPLACE each of the five default metadata rows. -/
def initialize_db (db : DBFile) : DBFile :=
  { tilesTab := some (db.tilesTab.getD []),
    metaTab := some (metadata_defaults.foldl
      (fun m p => insertOrReplaceMeta m p.1 p.2) (db.metaTab.getD [])) }

/-- The XYZ-to-stored-key conversion applied at the store boundary: the
row-flip expression 2 ** zoom - 1 - y written inline in tile_exists and
save_tile. -/
def toStoredKey (c : Nat × Int × Int) : Nat × Int × Int :=
  (c.1, c.2.1, 2 ^ c.1 - 1 - c.2.2)

/-- Modelled from the spec: the inverse stored-key conversion
(TMS row-flip back to XYZ), which the source does not name as a
function; the spec states fromStoredKey(toStoredKey(c)) == c. -/
def fromStoredKey (k : Nat × Int × Int) : Nat × Int × Int :=
  (k.1, k.2.1, 2 ^ k.1 - 1 - k.2.2)

/-- The log records the worker emits (thread ids and the URL text are
dropped; the coordinate they carry is kept). -/
inductive LogEvent where
  | startingDownload (zoom : Nat) (x y : Int)
  | downloaded (zoom : Nat) (x y : Int)
  | downloadFailed (zoom : Nat) (x y : Int) (status : Int)
  | skippedExisting (zoom : Nat) (x y : Int)
  | exceptionCaught
deriving DecidableEq

/-- The HTTP collaborator: session_manager.get on the URL built from
(zoom, x, y) either raises a transport error or returns a response with
a status code and content bytes. -/
abbrev Fetcher := Nat → Int → Int → Except Unit (Int × Bytes)

/-- The mutable world a worker task sees: the tiles table, the
thread-local connection flag, the shared progress-bar count, the number
of HTTP fetches performed so far, and the log. -/
structure WorkerState where
  tiles : List TilesRow
  connOpen : Bool
  pbar : Nat
  fetchCount : Nat
  log : List LogEvent
deriving DecidableEq

/-- TileDownloader.download_tile: log the start, perform the GET (one
fetch), save the tile if the status is 200, log the outcome; the
finally block updates the progress bar and closes the thread
connection on every path, including when the GET raised (the Bool
result records whether an exception propagates to the caller). -/
def download_tile (F : Fetcher) (zoom : Nat) (x y : Int) (s : WorkerState) :
    WorkerState × Bool :=
  let s1 : WorkerState :=
    { s with log := s.log ++ [.startingDownload zoom x y] }
  match F zoom x y with
  | .ok (status, body) =>
    let s2 : WorkerState := { s1 with fetchCount := s1.fetchCount + 1 }
    let s3 : WorkerState :=
      if status = 200 then
        { s2 with tiles := save_tile s2.tiles zoom x y body,
                  connOpen := true,
                  log := s2.log ++ [.downloaded zoom x y] }
      else
        { s2 with log := s2.log ++ [.downloadFailed zoom x y status] }
    ({ s3 with pbar := s3.pbar + 1, connOpen := false }, false)
  | .error _ =>
    let s2 : WorkerState := { s1 with fetchCount := s1.fetchCount + 1 }
    ({ s2 with pbar := s2.pbar + 1, connOpen := false }, true)

/-- TileDownloader.download_tile_rate_limited: acquire the semaphore (no
sequential effect), consult tile_exists (which obtains the thread
connection via get_conn, hence connOpen becomes true), then either
download or log the skip and update the progress bar. -/
def download_tile_rate_limited (F : Fetcher) (zoom : Nat) (x y : Int)
    (s : WorkerState) : WorkerState × Bool :=
  let s1 : WorkerState := { s with connOpen := true }
  if tile_exists s.tiles zoom x y then
    ({ s1 with log := s1.log ++ [.skippedExisting zoom x y],
               pbar := s1.pbar + 1 }, false)
  else
    download_tile F zoom x y s1

/-- TileDownloader.download_tiles: submit every tile to the pool and
consume the futures; a task whose future raised is logged and the
progress bar is updated once more in the exception handler.  The pool
is sequentialised in submission order.  Python returns None, modelled
as the Unit component of the result. -/
def download_tiles (F : Fetcher) (tilesL : List (Nat × Int × Int))
    (s : WorkerState) : Unit × WorkerState :=
  ((), tilesL.foldl (fun acc t =>
    let r := download_tile_rate_limited F t.1 t.2.1 t.2.2 acc
    if r.2 then
      { r.1 with log := r.1.log ++ [.exceptionCaught], pbar := r.1.pbar + 1 }
    else r.1) s)

/-- The float math collaborator used by tile_bounds (math.pi, math.sinh,
math.atan, math.degrees), with floats idealised as rationals. -/
structure FloatMath where
  pi : Rat
  sinh : Rat → Rat
  atan : Rat → Rat
  degrees : Rat → Rat

/-- TileDownloader.tile_bounds: lon_min, lat_min, lon_max, lat_max of
tile (x, y) at zoom z, via the inverse Web Mercator formulas. -/
def tile_bounds (M : FloatMath) (x y : Int) (z : Nat) : Rat × Rat × Rat × Rat :=
  let n : Rat := 2 ^ z
  let lon_min : Rat := (x : Rat) / n * 360 - 180
  let lat_min : Rat := M.degrees (M.atan (M.sinh (M.pi * (1 - 2 * (y : Rat) / n))))
  let lon_max : Rat := ((x : Rat) + 1) / n * 360 - 180
  let lat_max : Rat := M.degrees (M.atan (M.sinh (M.pi * (1 - 2 * ((y : Rat) + 1) / n))))
  (lon_min, lat_min, lon_max, lat_max)

/-- The point set of the shapely box built from a returned bounds tuple
(lon_min, lat_min, lon_max, lat_max): the closed axis-aligned rectangle
spanned by the two corners, i.e. the box normalised with min/max in
each axis regardless of the order of the coordinates. -/
def boxSet (b : Rat × Rat × Rat × Rat) : Set (Rat × Rat) :=
  {p | min b.1 b.2.2.1 ≤ p.1 ∧ p.1 ≤ max b.1 b.2.2.1 ∧
       min b.2.1 b.2.2.2 ≤ p.2 ∧ p.2 ≤ max b.2.1 b.2.2.2}

/-- TileDownloader.tiles_in_priority_zones: scan the full grid at the
zoom (x outer, y inner, each over range(2 ** zoom)) and append the
coordinate when the shapely intersection test (the intersectsB
collaborator, closed over the region geometry) accepts the box built
from tile_bounds. -/
def tiles_in_priority_zones (intersectsB : Rat × Rat × Rat × Rat → Bool)
    (M : FloatMath) (zoom : Nat) : List (Nat × Int × Int) :=
  (List.range (2 ^ zoom)).flatMap (fun (x : Nat) =>
    (List.range (2 ^ zoom)).flatMap (fun (y : Nat) =>
      if intersectsB (tile_bounds M (x : Int) (y : Int) zoom) then
        [(zoom, (x : Int), (y : Int))]
      else []))

/-- range(zoom_levels[0], zoom_levels[1] + 1). -/
def zoomRange (z0 z1 : Nat) : List Nat := List.range' z0 (z1 + 1 - z0)

/-- The priority tiles accumulated zoom by zoom in
download_tiles_to_mbtiles. -/
def priority_tiles (intersectsB : Rat × Rat × Rat × Rat → Bool)
    (M : FloatMath) (z0 z1 : Nat) : List (Nat × Int × Int) :=
  (zoomRange z0 z1).flatMap (fun z => tiles_in_priority_zones intersectsB M z)

/-- total_tiles = sum(4 ** z for z in the zoom range). -/
def total_tiles (z0 z1 : Nat) : Nat :=
  ((zoomRange z0 z1).map (fun z => 4 ^ z)).sum

/-- The non-priority tiles of download_tiles_to_mbtiles: the full
enumeration (zoom, then x, then y) keeping the coordinates not in the
priority list. -/
def non_priority_tiles (pr : List (Nat × Int × Int)) (z0 z1 : Nat) :
    List (Nat × Int × Int) :=
  (zoomRange z0 z1).flatMap (fun z =>
    (List.range (2 ^ z)).flatMap (fun (x : Nat) =>
      (List.range (2 ^ z)).flatMap (fun (y : Nat) =>
        if (z, (x : Int), (y : Int)) ∈ pr then []
        else [(z, (x : Int), (y : Int))])))

/-- The submission list of download_tiles_to_mbtiles: the priority tiles
(empty when no geojson path is supplied) followed by the non-priority
tiles. -/
def all_tiles (intersectsB : Rat × Rat × Rat × Rat → Bool) (M : FloatMath)
    (useRegion : Bool) (z0 z1 : Nat) : List (Nat × Int × Int) :=
  let pr := if useRegion then priority_tiles intersectsB M z0 z1 else []
  pr ++ non_priority_tiles pr z0 z1

/-- TileDownloader.download_tiles_to_mbtiles: build the submission list,
create a fresh progress bar (count 0, total total_tiles), and run
download_tiles over it; returns None. -/
def download_tiles_to_mbtiles (F : Fetcher)
    (intersectsB : Rat × Rat × Rat × Rat → Bool) (M : FloatMath)
    (useRegion : Bool) (z0 z1 : Nat) (s : WorkerState) : Unit × WorkerState :=
  download_tiles F (all_tiles intersectsB M useRegion z0 z1) { s with pbar := 0 }

/-- The full coordinate grid at one zoom, in the order of the source's
nested loops (x outer, y inner). -/
def gridLevel (z : Nat) : List (Nat × Int × Int) :=
  (List.range (2 ^ z)).flatMap (fun (x : Nat) =>
    (List.range (2 ^ z)).map (fun (y : Nat) => (z, (x : Int), (y : Int))))

/-- The full coordinate enumeration of the zoom range, in the order of
the source's nested comprehension (zoom, then x, then y). -/
def full_grid (z0 z1 : Nat) : List (Nat × Int × Int) :=
  (zoomRange z0 z1).flatMap gridLevel

/-- Observation: how many log records report a failed tile (non-200
status or a caught worker exception). -/
def failedEvents (l : List LogEvent) : Nat :=
  l.countP (fun e =>
    match e with
    | .downloadFailed _ _ _ _ => true
    | .exceptionCaught => true
    | _ => false)

/-- Observation: how many log records are terminal for an item
(downloaded, failed, skipped, or exception caught at the pool). -/
def terminalEvents (l : List LogEvent) : Nat :=
  l.countP (fun e =>
    match e with
    | .startingDownload _ _ _ => false
    | _ => true)

/-- A worker state over an empty, freshly initialised store. -/
def emptyState : WorkerState :=
  { tiles := [], connOpen := false, pbar := 0, fetchCount := 0, log := [] }

/-- A fetcher whose GET always raises a transport error. -/
def fetchErr : Fetcher := fun _ _ _ => .error ()

/-- A fetcher that always answers 200 with a one-byte body. -/
def fetchOK : Fetcher := fun _ _ _ => .ok (200, [120])

/-- A fetcher that always answers 500 with an empty body. -/
def fetch500 : Fetcher := fun _ _ _ => .ok (500, [])

/-- A worker state whose store already holds tile (0, 0, 0): the tiles
table contains the row at the flipped key (0, 0, 2^0 - 1 - 0). -/
def statePresent : WorkerState :=
  { tiles := [⟨0, 0, 0, [7]⟩], connOpen := false, pbar := 0, fetchCount := 0,
    log := [] }

/-- A trivial float math collaborator for concrete evaluations. -/
def mathZero : FloatMath :=
  { pi := 0, sinh := id, atan := id, degrees := id }

/-! ## Helper lemmas about the store -/

/-- The key predicate used by the tiles-table queries. -/
def tileKeyPred (zoom : Nat) (x y : Int) : TilesRow → Bool := fun r =>
  r.zoom_level == zoom && r.tile_column == x && r.tile_row == 2 ^ zoom - 1 - y

lemma tile_exists_eq_countP (tiles : List TilesRow) (zoom : Nat) (x y : Int) :
    tile_exists tiles zoom x y = decide (0 < tiles.countP (tileKeyPred zoom x y)) := rfl

lemma save_tile_eq (tiles : List TilesRow) (zoom : Nat) (x y : Int) (d : Bytes) :
    save_tile tiles zoom x y d =
      tiles.filter (fun r => !(tileKeyPred zoom x y r)) ++
        [⟨zoom, x, 2 ^ zoom - 1 - y, d⟩] := rfl

lemma tileKeyPred_new_row (zoom : Nat) (x y : Int) (d : Bytes) :
    tileKeyPred zoom x y ⟨zoom, x, 2 ^ zoom - 1 - y, d⟩ = true := by
  simp [tileKeyPred]

lemma countP_save_tile (tiles : List TilesRow) (zoom : Nat) (x y : Int) (d : Bytes) :
    (save_tile tiles zoom x y d).countP (tileKeyPred zoom x y) = 1 := by
  rw [save_tile_eq, List.countP_append, List.countP_filter]
  simp [tileKeyPred_new_row, List.countP_cons]

lemma tile_exists_save_tile (tiles : List TilesRow) (zoom : Nat) (x y : Int)
    (d : Bytes) : tile_exists (save_tile tiles zoom x y d) zoom x y = true := by
  rw [tile_exists_eq_countP, countP_save_tile]
  decide

lemma new_row_mem_save_tile (tiles : List TilesRow) (zoom : Nat) (x y : Int)
    (d : Bytes) :
    (⟨zoom, x, 2 ^ zoom - 1 - y, d⟩ : TilesRow) ∈ save_tile tiles zoom x y d := by
  rw [save_tile_eq]
  simp

/-! ## Claim theorems: the store layer -/

/-- C6: the XYZ-to-stored-key conversion maps (zoom, x, y) to the row
2 ^ zoom - 1 - y, round-trips (fromStoredKey after toStoredKey is the
identity), is a bijection on rows for fixed zoom, and is the exact key
both tile_exists and save_tile address, so an existence check after a
save for the same XYZ coordinate addresses the same stored row. -/
theorem stored_key_conversion_spec :
    (∀ c : Nat × Int × Int, toStoredKey c = (c.1, c.2.1, 2 ^ c.1 - 1 - c.2.2)) ∧
    (∀ c : Nat × Int × Int, fromStoredKey (toStoredKey c) = c) ∧
    (∀ z : Nat, Function.Bijective (fun y : Int => 2 ^ z - 1 - y)) ∧
    (∀ (tiles : List TilesRow) (zoom : Nat) (x y : Int),
      tile_exists tiles zoom x y = true ↔
        0 < tiles.countP (fun r =>
          r.zoom_level == (toStoredKey (zoom, x, y)).1 &&
          r.tile_column == (toStoredKey (zoom, x, y)).2.1 &&
          r.tile_row == (toStoredKey (zoom, x, y)).2.2)) ∧
    (∀ (tiles : List TilesRow) (zoom : Nat) (x y : Int) (d : Bytes),
      (⟨(toStoredKey (zoom, x, y)).1, (toStoredKey (zoom, x, y)).2.1,
        (toStoredKey (zoom, x, y)).2.2, d⟩ : TilesRow) ∈ save_tile tiles zoom x y d) ∧
    (∀ (tiles : List TilesRow) (zoom : Nat) (x y : Int) (d : Bytes),
      tile_exists (save_tile tiles zoom x y d) zoom x y = true) := by
  refine ⟨fun c => rfl, ?_, ?_, ?_, ?_, ?_⟩
  · intro c
    simp [toStoredKey, fromStoredKey]
  · intro z
    have h : Function.Involutive (fun y : Int => 2 ^ z - 1 - y) := by
      intro y; simp
    exact h.bijective
  · intro tiles zoom x y
    simp [tile_exists, toStoredKey]
  · intro tiles zoom x y d
    exact new_row_mem_save_tile tiles zoom x y d
  · intro tiles zoom x y d
    exact tile_exists_save_tile tiles zoom x y d

/-- C7: save is an idempotent upsert: saving twice for the same
coordinate (payloads equal or not) leaves exactly one record for that
key, the surviving record carries the second payload, and a subsequent
existence check returns true. -/
theorem save_tile_idempotent_upsert (tiles : List TilesRow) (zoom : Nat)
    (x y : Int) (d1 d2 : Bytes) :
    (save_tile (save_tile tiles zoom x y d1) zoom x y d2).countP
        (fun r => r.zoom_level == zoom && r.tile_column == x &&
          r.tile_row == 2 ^ zoom - 1 - y) = 1 ∧
    (⟨zoom, x, 2 ^ zoom - 1 - y, d2⟩ : TilesRow) ∈
        save_tile (save_tile tiles zoom x y d1) zoom x y d2 ∧
    tile_exists (save_tile (save_tile tiles zoom x y d1) zoom x y d2) zoom x y
        = true :=
  ⟨countP_save_tile _ zoom x y d2, new_row_mem_save_tile _ zoom x y d2,
    tile_exists_save_tile _ zoom x y d2⟩

/-- C10: the store performs no range validation: for every zoom and all
integers x and y, including coordinates outside the declared grid,
save_tile totally succeeds and writes the record at the flipped row
2 ^ zoom - 1 - y (possibly negative or out of grid), and a subsequent
tile_exists for the same arguments returns true because both apply the
identical row flip. -/
theorem save_exists_no_range_validation (zoom : Nat) (x y : Int) (d : Bytes)
    (tiles : List TilesRow) :
    (⟨zoom, x, 2 ^ zoom - 1 - y, d⟩ : TilesRow) ∈ save_tile tiles zoom x y d ∧
    tile_exists (save_tile tiles zoom x y d) zoom x y = true :=
  ⟨new_row_mem_save_tile tiles zoom x y d, tile_exists_save_tile tiles zoom x y d⟩

/-! ## Claim theorems: the worker state machine -/

/-- C2 (failing input): one submitted tile whose GET raises a transport
error over an empty store.  The finally block of download_tile updates
the progress counter once, and the exception handler of download_tiles
updates it again, so the counter ends at 2 for a single item, not 1. -/
theorem download_tiles_double_progress_update_on_exception :
    (download_tiles fetchErr [(0, 0, 0)] emptyState).2.pbar = 2 ∧
    terminalEvents (download_tiles fetchErr [(0, 0, 0)] emptyState).2.log = 1 := by
  constructor <;> rfl

/-- C5 (counterexample): for the item (0, 0, 0) over a store that
already holds that tile, the task terminates SKIPPED but the thread
database connection opened by the existence check is still open when
the task completes, so the handle is not released on every path. -/
theorem skipped_path_leaves_conn_open :
    tile_exists statePresent.tiles 0 0 0 = true ∧
    (download_tile_rate_limited fetchOK 0 0 0 statePresent).1.connOpen = true := by
  constructor <;> rfl

/-- C5 (amended): after a work item completes, the worker thread's
database handle is open exactly when the item was skipped: tasks that
enter download_tile (stored, or failed by status or by a transport
exception) release the handle in the finally block, while the skipped
path leaves the handle opened by the existence check open. -/
theorem conn_open_after_item_iff_skipped (F : Fetcher) (zoom : Nat) (x y : Int)
    (s : WorkerState) :
    (download_tile_rate_limited F zoom x y s).1.connOpen
      = tile_exists s.tiles zoom x y := by
  unfold download_tile_rate_limited
  cases h : tile_exists s.tiles zoom x y
  · cases hF : F zoom x y with
    | ok p =>
      rcases p with ⟨st, body⟩
      by_cases h200 : st = 200 <;> simp [download_tile, hF, h200]
    | error e => simp [download_tile, hF]
  · simp

/-- C1: a submitted item first consults the existence check; if it
holds the item terminates SKIPPED with no fetch and no store change;
otherwise the fetcher is called exactly once and the bytes are saved
exactly when the status is 200: on 200 the item terminates STORED with
the record present, on any other status it terminates FAILED with the
store unchanged and still no record for the coordinate, and on a
transport error the store is also unchanged. -/
theorem worker_item_state_machine (F : Fetcher) (zoom : Nat) (x y : Int)
    (s : WorkerState) :
    (tile_exists s.tiles zoom x y = true →
      (download_tile_rate_limited F zoom x y s).1.tiles = s.tiles ∧
      (download_tile_rate_limited F zoom x y s).1.fetchCount = s.fetchCount ∧
      (download_tile_rate_limited F zoom x y s).1.log
        = s.log ++ [LogEvent.skippedExisting zoom x y] ∧
      (download_tile_rate_limited F zoom x y s).2 = false) ∧
    (tile_exists s.tiles zoom x y = false →
      (download_tile_rate_limited F zoom x y s).1.fetchCount = s.fetchCount + 1 ∧
      (∀ status body, F zoom x y = Except.ok (status, body) →
        (status = 200 →
          (download_tile_rate_limited F zoom x y s).1.tiles
            = save_tile s.tiles zoom x y body ∧
          tile_exists (download_tile_rate_limited F zoom x y s).1.tiles zoom x y
            = true ∧
          (download_tile_rate_limited F zoom x y s).1.log
            = s.log ++ [LogEvent.startingDownload zoom x y,
                LogEvent.downloaded zoom x y] ∧
          (download_tile_rate_limited F zoom x y s).2 = false) ∧
        (status ≠ 200 →
          (download_tile_rate_limited F zoom x y s).1.tiles = s.tiles ∧
          tile_exists (download_tile_rate_limited F zoom x y s).1.tiles zoom x y
            = false ∧
          (download_tile_rate_limited F zoom x y s).1.log
            = s.log ++ [LogEvent.startingDownload zoom x y,
                LogEvent.downloadFailed zoom x y status] ∧
          (download_tile_rate_limited F zoom x y s).2 = false)) ∧
      (∀ e, F zoom x y = Except.error e →
        (download_tile_rate_limited F zoom x y s).1.tiles = s.tiles ∧
        (download_tile_rate_limited F zoom x y s).2 = true)) := by
  constructor
  · intro h
    simp [download_tile_rate_limited, h]
  · intro h
    refine ⟨?_, ?_, ?_⟩
    · cases hF : F zoom x y with
      | ok p =>
        rcases p with ⟨st, body⟩
        by_cases h200 : st = 200 <;>
          simp [download_tile_rate_limited, download_tile, h, hF, h200]
      | error e => simp [download_tile_rate_limited, download_tile, h, hF]
    · intro status body hF
      constructor
      · intro h200
        subst h200
        refine ⟨?_, ?_, ?_, ?_⟩ <;>
          simp [download_tile_rate_limited, download_tile, h, hF,
            tile_exists_save_tile]
      · intro h200
        refine ⟨?_, ?_, ?_, ?_⟩ <;>
          simp [download_tile_rate_limited, download_tile, h, hF, h200]
    · intro e hF
      constructor <;> simp [download_tile_rate_limited, download_tile, h, hF]

/-- C1 (witness): over the empty store, the existence check for
(0, 0, 0) is false and processing the item with the always-200 fetcher
performs exactly one fetch. -/
theorem worker_item_state_machine_witness :
    tile_exists emptyState.tiles 0 0 0 = false ∧
    (download_tile_rate_limited fetchOK 0 0 0 emptyState).1.fetchCount
      = emptyState.fetchCount + 1 :=
  ⟨by decide, ((worker_item_state_machine fetchOK 0 0 0 emptyState).2 (by decide)).1⟩

/-! ## Helper lemmas about the pool loop -/

/-- The per-future consumption step of download_tiles: run the
rate-limited task and, when its future raised, log the exception and
update the progress bar once more. -/
def poolStep (F : Fetcher) (t : Nat × Int × Int) (s : WorkerState) : WorkerState :=
  let r := download_tile_rate_limited F t.1 t.2.1 t.2.2 s
  if r.2 then
    { r.1 with log := r.1.log ++ [.exceptionCaught], pbar := r.1.pbar + 1 }
  else r.1

lemma download_tiles_eq_foldl (F : Fetcher) (tilesL : List (Nat × Int × Int))
    (s : WorkerState) :
    download_tiles F tilesL s = ((), tilesL.foldl (fun acc t => poolStep F t acc) s) :=
  rfl

lemma terminalEvents_append (l1 l2 : List LogEvent) :
    terminalEvents (l1 ++ l2) = terminalEvents l1 + terminalEvents l2 :=
  List.countP_append _ l1 l2

/-- Every consumed future contributes exactly one terminal log record,
whichever terminal state the item reached. -/
lemma poolStep_terminal (F : Fetcher) (t : Nat × Int × Int) (s : WorkerState) :
    terminalEvents (poolStep F t s).log = terminalEvents s.log + 1 := by
  cases h : tile_exists s.tiles t.1 t.2.1 t.2.2
  · cases hF : F t.1 t.2.1 t.2.2 with
    | ok p =>
      rcases p with ⟨st, body⟩
      by_cases h200 : st = 200 <;>
        simp [poolStep, download_tile_rate_limited, download_tile, h, hF, h200,
          terminalEvents_append, terminalEvents]
    | error e =>
      simp [poolStep, download_tile_rate_limited, download_tile, h, hF,
        terminalEvents_append, terminalEvents]
  · simp [poolStep, download_tile_rate_limited, h, terminalEvents_append,
      terminalEvents]

lemma terminal_foldl (F : Fetcher) (tilesL : List (Nat × Int × Int)) :
    ∀ s : WorkerState,
      terminalEvents (tilesL.foldl (fun acc t => poolStep F t acc) s).log
        = terminalEvents s.log + tilesL.length := by
  induction tilesL with
  | nil => intro s; simp
  | cons t ts ih =>
    intro s
    simp only [List.foldl_cons, List.length_cons, ih, poolStep_terminal]
    omega

/-! ## Claim theorems: error isolation and reporting -/

/-- C3 (counterexample): two runs over the same single-tile work list
and empty store, one in which the tile FAILED (status 500) and one in
which it was STORED (status 200), return the identical value to the
caller (Python None); since the two runs have different FAILED counts
but indistinguishable results, the aggregate result of a run does not
report the counts of STORED, SKIPPED and FAILED tiles to the caller. -/
theorem run_value_reports_no_counts :
    (download_tiles fetch500 [(0, 0, 0)] emptyState).1
      = (download_tiles fetchOK [(0, 0, 0)] emptyState).1 ∧
    failedEvents (download_tiles fetch500 [(0, 0, 0)] emptyState).2.log = 1 ∧
    failedEvents (download_tiles fetchOK [(0, 0, 0)] emptyState).2.log = 0 := by
  refine ⟨rfl, rfl, rfl⟩

/-- C3 (amended): per-tile errors are caught at the worker boundary and
never terminate the pool or the other submitted items: for every
fetcher (including ones that raise), every submitted item is driven to
exactly one terminal state (one terminal log record each) and the run
completes; the terminal states are recorded in the logs and the shared
progress counter, but the run returns no aggregate per-state counts to
the caller (its Python return value is None). -/
theorem per_tile_errors_isolated_counts_not_returned (F : Fetcher)
    (tilesL : List (Nat × Int × Int)) (s : WorkerState) :
    (download_tiles F tilesL s).1 = () ∧
    terminalEvents (download_tiles F tilesL s).2.log
      = terminalEvents s.log + tilesL.length := by
  rw [download_tiles_eq_foldl]
  exact ⟨rfl, terminal_foldl F tilesL s⟩

/-! ## Helper lemmas about the grid enumeration -/

lemma mem_gridLevel (z : Nat) (t : Nat × Int × Int) :
    t ∈ gridLevel z ↔
      t.1 = z ∧ 0 ≤ t.2.1 ∧ t.2.1 < (2 : Int) ^ z ∧
      0 ≤ t.2.2 ∧ t.2.2 < (2 : Int) ^ z := by
  obtain ⟨tz, tx, ty⟩ := t
  have hcast : ((2 ^ z : Nat) : Int) = (2 : Int) ^ z := by push_cast; ring
  simp only [gridLevel, List.mem_flatMap, List.mem_map, List.mem_range]
  constructor
  · rintro ⟨x, hx, y, hy, heq⟩
    rw [Prod.mk.injEq, Prod.mk.injEq] at heq
    obtain ⟨h1, h2, h3⟩ := heq
    subst h1; subst h2; subst h3
    refine ⟨rfl, by omega, ?_, by omega, ?_⟩ <;> · rw [← hcast]; omega
  · rintro ⟨rfl, h1, h2, h3, h4⟩
    rw [← hcast] at h2 h4
    refine ⟨tx.toNat, by omega, ty.toNat, by omega, ?_⟩
    rw [Prod.mk.injEq, Prod.mk.injEq]
    refine ⟨rfl, by omega, by omega⟩

lemma gridLevel_nodup (z : Nat) : (gridLevel z).Nodup := by
  rw [gridLevel, List.nodup_flatMap]
  constructor
  · intro x _
    refine List.Nodup.map ?_ (List.nodup_range _)
    intro a b hab
    have : (a : Int) = (b : Int) := by simpa using hab
    exact_mod_cast this
  · refine (List.pairwise_lt_range (2 ^ z)).imp ?_
    intro a b hab t ht ht'
    simp only [List.mem_map, List.mem_range] at ht ht'
    obtain ⟨y1, _, he1⟩ := ht
    obtain ⟨y2, _, he2⟩ := ht'
    rw [← he2, Prod.mk.injEq, Prod.mk.injEq] at he1
    have : (a : Int) = (b : Int) := he1.2.1
    have : a = b := by exact_mod_cast this
    omega

lemma full_grid_nodup (z0 z1 : Nat) : (full_grid z0 z1).Nodup := by
  rw [full_grid, List.nodup_flatMap]
  refine ⟨fun z _ => gridLevel_nodup z, ?_⟩
  have hp : (zoomRange z0 z1).Pairwise (· ≠ ·) := List.nodup_range' z0 (z1 + 1 - z0)
  refine hp.imp ?_
  intro a b hab t ht ht'
  rw [mem_gridLevel] at ht ht'
  exact hab (ht.1.symm.trans ht'.1)

lemma mem_full_grid (z0 z1 : Nat) (t : Nat × Int × Int) :
    t ∈ full_grid z0 z1 ↔
      z0 ≤ t.1 ∧ t.1 ≤ z1 ∧ 0 ≤ t.2.1 ∧ t.2.1 < (2 : Int) ^ t.1 ∧
      0 ≤ t.2.2 ∧ t.2.2 < (2 : Int) ^ t.1 := by
  rw [full_grid]
  simp only [List.mem_flatMap, zoomRange, List.mem_range'_1, mem_gridLevel]
  constructor
  · rintro ⟨z, hzr, h1, h2, h3, h4, h5⟩
    subst h1
    exact ⟨hzr.1, by omega, h2, h3, h4, h5⟩
  · rintro ⟨h0, h1, h2, h3, h4, h5⟩
    exact ⟨t.1, ⟨h0, by omega⟩, rfl, h2, h3, h4, h5⟩

lemma length_gridLevel (z : Nat) : (gridLevel z).length = 4 ^ z := by
  rw [gridLevel, List.length_flatMap]
  have h : List.map (List.length ∘ fun x : Nat =>
        (List.range (2 ^ z)).map (fun y : Nat => ((z, (x : Int), (y : Int)) : Nat × Int × Int)))
      (List.range (2 ^ z)) = List.replicate (2 ^ z) (2 ^ z) := by
    rw [List.eq_replicate_iff]
    constructor
    · simp
    · intro b hb
      simp only [List.mem_map] at hb
      obtain ⟨x, _, hx⟩ := hb
      simp [← hx]
  rw [h, List.sum_replicate, smul_eq_mul, ← mul_pow]
  norm_num

lemma length_full_grid (z0 z1 : Nat) :
    (full_grid z0 z1).length = total_tiles z0 z1 := by
  rw [full_grid, List.length_flatMap, total_tiles]
  exact congrArg List.sum (List.map_congr_left (fun z _ => length_gridLevel z))

lemma flatMap_ite_singleton {α : Type} (l : List Nat) (f : Nat → α) (p : α → Bool) :
    (l.flatMap fun a => if p (f a) then [f a] else []) = (l.map f).filter p := by
  induction l with
  | nil => rfl
  | cons a t ih =>
    simp only [List.flatMap_cons, List.map_cons, List.filter_cons, ih]
    by_cases h : p (f a) = true
    · simp [h]
    · simp [h]

lemma flatMap_ite_mem {α : Type} [BEq α] [LawfulBEq α] (l : List Nat) (f : Nat → α)
    (pr : List α) :
    (l.flatMap fun a => if f a ∈ pr then [] else [f a])
      = (l.map f).filter (fun t => !(decide (t ∈ pr))) := by
  induction l with
  | nil => rfl
  | cons a t ih =>
    simp only [List.flatMap_cons, List.map_cons, List.filter_cons, ih]
    by_cases h : f a ∈ pr
    · simp [h]
    · simp [h]

lemma tiles_in_priority_zones_eq (intr : Rat × Rat × Rat × Rat → Bool)
    (M : FloatMath) (z : Nat) :
    tiles_in_priority_zones intr M z
      = (gridLevel z).filter (fun t => intr (tile_bounds M t.2.1 t.2.2 z)) := by
  rw [tiles_in_priority_zones, gridLevel, List.filter_flatMap]
  refine congrArg (List.flatMap (List.range (2 ^ z))) (funext fun x => ?_)
  exact flatMap_ite_singleton (List.range (2 ^ z))
    (fun y => ((z, (x : Int), (y : Int)) : Nat × Int × Int))
    (fun t => intr (tile_bounds M t.2.1 t.2.2 z))

lemma non_priority_tiles_eq (pr : List (Nat × Int × Int)) (z0 z1 : Nat) :
    non_priority_tiles pr z0 z1
      = (full_grid z0 z1).filter (fun t => !(decide (t ∈ pr))) := by
  rw [non_priority_tiles, full_grid, List.filter_flatMap]
  refine congrArg (List.flatMap (zoomRange z0 z1)) (funext fun z => ?_)
  rw [gridLevel, List.filter_flatMap]
  refine congrArg (List.flatMap (List.range (2 ^ z))) (funext fun x => ?_)
  exact flatMap_ite_mem (List.range (2 ^ z))
    (fun y => ((z, (x : Int), (y : Int)) : Nat × Int × Int)) pr

lemma tiles_in_priority_zones_nodup (intr : Rat × Rat × Rat × Rat → Bool)
    (M : FloatMath) (z : Nat) : (tiles_in_priority_zones intr M z).Nodup := by
  rw [tiles_in_priority_zones_eq]
  exact (gridLevel_nodup z).filter _

lemma tiles_in_priority_zones_sub (intr : Rat × Rat × Rat × Rat → Bool)
    (M : FloatMath) (z : Nat) :
    ∀ t ∈ tiles_in_priority_zones intr M z, t ∈ gridLevel z ∧ t.1 = z := by
  intro t ht
  rw [tiles_in_priority_zones_eq, List.mem_filter] at ht
  exact ⟨ht.1, ((mem_gridLevel z t).mp ht.1).1⟩

lemma priority_tiles_nodup (intr : Rat × Rat × Rat × Rat → Bool) (M : FloatMath)
    (z0 z1 : Nat) : (priority_tiles intr M z0 z1).Nodup := by
  rw [priority_tiles, List.nodup_flatMap]
  refine ⟨fun z _ => tiles_in_priority_zones_nodup intr M z, ?_⟩
  have hp : (zoomRange z0 z1).Pairwise (· ≠ ·) := List.nodup_range' z0 (z1 + 1 - z0)
  refine hp.imp ?_
  intro a b hab t ht ht'
  exact hab (((tiles_in_priority_zones_sub intr M a t ht).2).symm.trans
    ((tiles_in_priority_zones_sub intr M b t ht').2))

lemma priority_tiles_subset (intr : Rat × Rat × Rat × Rat → Bool) (M : FloatMath)
    (z0 z1 : Nat) : ∀ t ∈ priority_tiles intr M z0 z1, t ∈ full_grid z0 z1 := by
  intro t ht
  rw [priority_tiles, List.mem_flatMap] at ht
  obtain ⟨z, hz, htz⟩ := ht
  rw [full_grid, List.mem_flatMap]
  exact ⟨z, hz, (tiles_in_priority_zones_sub intr M z t htz).1⟩

lemma submission_perm (pr : List (Nat × Int × Int)) (z0 z1 : Nat)
    (hnd : pr.Nodup) (hsub : ∀ t ∈ pr, t ∈ full_grid z0 z1) :
    (pr ++ non_priority_tiles pr z0 z1).Perm (full_grid z0 z1) := by
  rw [non_priority_tiles_eq]
  have hfil : ((full_grid z0 z1).filter (fun t => !(decide (t ∈ pr)))).Nodup :=
    (full_grid_nodup z0 z1).filter _
  have hdisj : pr.Disjoint ((full_grid z0 z1).filter (fun t => !(decide (t ∈ pr)))) := by
    rw [List.disjoint_left]
    intro a ha hb
    rw [List.mem_filter] at hb
    simp only [Bool.not_eq_true', decide_eq_false_iff_not] at hb
    exact hb.2 ha
  refine List.perm_of_nodup_nodup_toFinset_eq (hnd.append hfil hdisj)
    (full_grid_nodup z0 z1) ?_
  rw [Finset.ext_iff]
  intro a
  rw [List.mem_toFinset, List.mem_toFinset, List.mem_append, List.mem_filter]
  constructor
  · rintro (h | h)
    · exact hsub a h
    · exact h.1
  · intro h
    by_cases hp : a ∈ pr
    · exact Or.inl hp
    · exact Or.inr ⟨h, by simp [hp]⟩

/-! ## Claim theorems: submission list and priority selection -/

/-- C4: for every zoom range and optional region, the submission list
built by download_tiles_to_mbtiles is exactly the priority tiles (in
the order the geometry filter produced them, zoom ascending) followed
by the remaining tiles of the full grid in enumeration order; it is
duplicate-free, contains a coordinate exactly when the coordinate
belongs to the full grid of the zoom range, and its length is the sum
of 4 ^ z over the range (the total_tiles count of the source). -/
theorem submission_list_complete (intr : Rat × Rat × Rat × Rat → Bool)
    (M : FloatMath) (useRegion : Bool) (z0 z1 : Nat) :
    all_tiles intr M useRegion z0 z1
      = (if useRegion then priority_tiles intr M z0 z1 else [])
        ++ non_priority_tiles
            (if useRegion then priority_tiles intr M z0 z1 else []) z0 z1 ∧
    non_priority_tiles (if useRegion then priority_tiles intr M z0 z1 else []) z0 z1
      = (full_grid z0 z1).filter
          (fun t => !(decide (t ∈ (if useRegion then priority_tiles intr M z0 z1 else [])))) ∧
    (all_tiles intr M useRegion z0 z1).Nodup ∧
    (∀ t : Nat × Int × Int, t ∈ all_tiles intr M useRegion z0 z1 ↔
      (z0 ≤ t.1 ∧ t.1 ≤ z1 ∧ 0 ≤ t.2.1 ∧ t.2.1 < (2 : Int) ^ t.1 ∧
       0 ≤ t.2.2 ∧ t.2.2 < (2 : Int) ^ t.1)) ∧
    (all_tiles intr M useRegion z0 z1).length = total_tiles z0 z1 := by
  have hnd : (if useRegion then priority_tiles intr M z0 z1 else []).Nodup := by
    cases useRegion
    · simp
    · simpa using priority_tiles_nodup intr M z0 z1
  have hsub : ∀ t ∈ (if useRegion then priority_tiles intr M z0 z1 else []),
      t ∈ full_grid z0 z1 := by
    cases useRegion
    · simp
    · simpa using priority_tiles_subset intr M z0 z1
  have hperm := submission_perm _ z0 z1 hnd hsub
  have hall : all_tiles intr M useRegion z0 z1
      = (if useRegion then priority_tiles intr M z0 z1 else [])
        ++ non_priority_tiles
            (if useRegion then priority_tiles intr M z0 z1 else []) z0 z1 := rfl
  refine ⟨hall, non_priority_tiles_eq _ z0 z1, ?_, ?_, ?_⟩
  · rw [hall]
    exact hperm.nodup_iff.mpr (full_grid_nodup z0 z1)
  · intro t
    rw [hall, hperm.mem_iff]
    exact mem_full_grid z0 z1 t
  · rw [hall, hperm.length_eq, length_full_grid]

lemma mem_tiles_in_priority_zones (intr : Rat × Rat × Rat × Rat → Bool)
    (M : FloatMath) (zoom : Nat) (t : Nat × Int × Int) :
    t ∈ tiles_in_priority_zones intr M zoom ↔
      t.1 = zoom ∧ 0 ≤ t.2.1 ∧ t.2.1 < (2 : Int) ^ zoom ∧
      0 ≤ t.2.2 ∧ t.2.2 < (2 : Int) ^ zoom ∧
      intr (tile_bounds M t.2.1 t.2.2 zoom) = true := by
  rw [tiles_in_priority_zones_eq, List.mem_filter, mem_gridLevel]
  constructor
  · rintro ⟨⟨h1, h2, h3, h4, h5⟩, h6⟩
    subst h1
    exact ⟨rfl, h2, h3, h4, h5, h6⟩
  · rintro ⟨h1, h2, h3, h4, h5, h6⟩
    subst h1
    exact ⟨⟨rfl, h2, h3, h4, h5⟩, h6⟩

/-- Any returned bounds box intersects the whole plane: it contains its
lower-left corner after min/max normalisation. -/
lemma boxSet_inter_univ_nonempty (b : Rat × Rat × Rat × Rat) :
    (boxSet b ∩ Set.univ).Nonempty :=
  ⟨(min b.1 b.2.2.1, min b.2.1 b.2.2.2),
    ⟨le_refl _, min_le_max, le_refl _, min_le_max⟩, trivial⟩

/-- C8: assuming the geometry collaborator decides intersection of the
corner-spanned closed box (min/max normalised in each axis, so touching
boundaries count) with the region geometry, the priority selection at a
zoom scans the full 2 ^ zoom by 2 ^ zoom grid and includes a coordinate
exactly when that normalised closed box of the tile's bounds intersects
the region. -/
theorem priority_selection_full_scan (intr : Rat × Rat × Rat × Rat → Bool)
    (geom : Set (Rat × Rat)) (M : FloatMath) (zoom : Nat)
    (hI : ∀ b, intr b = true ↔ (boxSet b ∩ geom).Nonempty) (t : Nat × Int × Int) :
    t ∈ tiles_in_priority_zones intr M zoom ↔
      (t.1 = zoom ∧ 0 ≤ t.2.1 ∧ t.2.1 < (2 : Int) ^ zoom ∧
       0 ≤ t.2.2 ∧ t.2.2 < (2 : Int) ^ zoom ∧
       (boxSet (tile_bounds M t.2.1 t.2.2 zoom) ∩ geom).Nonempty) := by
  rw [mem_tiles_in_priority_zones, hI]

/-- C8 (witness): with the trivial collaborator that always answers
true — which decides intersection with the whole plane, every
normalised box being nonempty — tile (0, 0, 0) is selected at zoom 0. -/
theorem priority_selection_full_scan_witness :
    (0, (0 : Int), (0 : Int)) ∈ tiles_in_priority_zones (fun _ => true) mathZero 0 := by
  have hI : ∀ b : Rat × Rat × Rat × Rat,
      (fun _ : Rat × Rat × Rat × Rat => true) b = true ↔
        (boxSet b ∩ (Set.univ : Set (Rat × Rat))).Nonempty :=
    fun b => iff_of_true rfl (boxSet_inter_univ_nonempty b)
  exact (priority_selection_full_scan (fun _ => true) Set.univ mathZero 0 hI
    (0, 0, 0)).mpr
    ⟨rfl, le_refl _, by norm_num, le_refl _, by norm_num,
      boxSet_inter_univ_nonempty _⟩

/-! ## Helper lemmas about the metadata table -/

/-- Folding INSERT OR REPLACE over rows with pairwise distinct names
strips all those names from the table and appends the rows in order. -/
lemma foldl_iorm_strip (ps : List (String × String))
    (hps : (ps.map Prod.fst).Nodup) (m : List (String × String)) :
    ps.foldl (fun m p => insertOrReplaceMeta m p.1 p.2) m
      = m.filter (fun r => !((ps.map Prod.fst).contains r.1)) ++ ps := by
  induction ps generalizing m with
  | nil => simp
  | cons p rest ih =>
    rw [List.map_cons, List.nodup_cons] at hps
    rw [List.foldl_cons, ih hps.2, insertOrReplaceMeta, List.filter_append]
    have hc : (rest.map Prod.fst).contains p.1 = false := by
      rcases h : (rest.map Prod.fst).contains p.1 with _ | _
      · rfl
      · exact absurd (List.elem_iff.mp h) hps.1
    have hsingle : List.filter (fun r => !((rest.map Prod.fst).contains r.1))
        [(p.1, p.2)] = [(p.1, p.2)] := by
      rw [List.filter_cons, hc]
      simp
    rw [hsingle, List.filter_filter]
    have hmerge : List.filter
        (fun a => (!((rest.map Prod.fst).contains a.1)) && !(a.1 == p.1)) m
        = List.filter (fun r => !(((p.1 :: rest.map Prod.fst)).contains r.1)) m := by
      apply List.filter_congr
      intro a _
      rw [List.contains_cons, Bool.not_or, Bool.and_comm]
    rw [hmerge, List.append_assoc, List.singleton_append, Prod.mk.eta,
      List.map_cons]

lemma initMeta_eq (m : List (String × String)) :
    metadata_defaults.foldl (fun m p => insertOrReplaceMeta m p.1 p.2) m
      = m.filter (fun r => !((metadata_defaults.map Prod.fst).contains r.1))
        ++ metadata_defaults :=
  foldl_iorm_strip metadata_defaults (by decide) m

lemma initMeta_idem (m : List (String × String)) :
    metadata_defaults.foldl (fun m p => insertOrReplaceMeta m p.1 p.2)
      (metadata_defaults.foldl (fun m p => insertOrReplaceMeta m p.1 p.2) m)
      = metadata_defaults.foldl (fun m p => insertOrReplaceMeta m p.1 p.2) m := by
  rw [initMeta_eq m, initMeta_eq
    (m.filter (fun r => !((metadata_defaults.map Prod.fst).contains r.1))
      ++ metadata_defaults), List.filter_append]
  have hmd : metadata_defaults.filter
      (fun r => !((metadata_defaults.map Prod.fst).contains r.1)) = [] := rfl
  rw [hmd, List.append_nil, List.filter_filter]
  congr 1
  apply List.filter_congr
  intro a _
  rw [Bool.and_self]

lemma countP_strip_name (m0 : List (String × String)) (nm : String)
    (hnm : (metadata_defaults.map Prod.fst).contains nm = true) :
    (m0.filter (fun r => !((metadata_defaults.map Prod.fst).contains r.1))).countP
      (fun r => r.1 == nm) = 0 := by
  rw [List.countP_filter, List.countP_eq_zero]
  intro a _
  simp only [Bool.and_eq_true, beq_iff_eq, Bool.not_eq_true']
  rintro ⟨h1, h2⟩
  rw [h1, hnm] at h2
  exact Bool.noConfusion h2

/-! ## Claim theorem: store initialization -/

/-- C9: initialization is idempotent across repeated runs against the
same backing store: initializing twice equals initializing once,
initializing when the tiles table already exists keeps its rows
unchanged (a no-op on the schema, and never an error since the
embedded operation is total), and after any initialization every one of
the five descriptive metadata entries (name, type, version,
description, format) is present exactly once. -/
theorem initialize_db_idempotent_spec (db : DBFile) :
    initialize_db (initialize_db db) = initialize_db db ∧
    (initialize_db db).tilesTab = some (db.tilesTab.getD []) ∧
    (∀ p ∈ metadata_defaults,
      p ∈ ((initialize_db db).metaTab.getD []) ∧
      ((initialize_db db).metaTab.getD []).countP (fun r => r.1 == p.1) = 1) := by
  refine ⟨?_, rfl, ?_⟩
  · show DBFile.mk _ _ = DBFile.mk _ _
    rw [DBFile.mk.injEq]
    constructor
    · rfl
    · show some (metadata_defaults.foldl _
          ((some (metadata_defaults.foldl _ (db.metaTab.getD []))).getD [])) = _
      rw [Option.getD_some]
      exact congrArg some (initMeta_idem (db.metaTab.getD []))
  · intro p hp
    have hmem : ((initialize_db db).metaTab.getD [])
        = (db.metaTab.getD []).filter
            (fun r => !((metadata_defaults.map Prod.fst).contains r.1))
          ++ metadata_defaults := by
      show (some (metadata_defaults.foldl _ (db.metaTab.getD []))).getD [] = _
      rw [Option.getD_some]
      exact initMeta_eq (db.metaTab.getD [])
    rw [hmem]
    constructor
    · exact List.mem_append_right _ hp
    · rw [List.countP_append]
      have hnm : (metadata_defaults.map Prod.fst).contains p.1 = true := by
        simp only [metadata_defaults, List.mem_cons, List.not_mem_nil,
          or_false] at hp
        rcases hp with rfl | rfl | rfl | rfl | rfl <;> rfl
      rw [countP_strip_name _ _ hnm]
      have hcnt : metadata_defaults.countP (fun r => r.1 == p.1) = 1 := by
        simp only [metadata_defaults, List.mem_cons, List.not_mem_nil,
          or_false] at hp
        rcases hp with rfl | rfl | rfl | rfl | rfl <;> rfl
      rw [hcnt]

/-- C9 (witness): over a fresh database file with no tables, the name
entry is one of the defaults and ends up present in the metadata table
after initialization. -/
theorem initialize_db_idempotent_spec_witness :
    ("name", "OpenStreetMapTiles") ∈ metadata_defaults ∧
    ("name", "OpenStreetMapTiles") ∈
      ((initialize_db ⟨none, none⟩).metaTab.getD []) :=
  ⟨by decide,
    ((initialize_db_idempotent_spec ⟨none, none⟩).2.2 _ (by decide)).1⟩
